import Mathlib

/-!
Verification of `ip_db_filler.py` (spidlisn/ip_filler).

The Python source is shallowly embedded below: pure functions become Lean
functions, the SQL artifacts become explicit statement lists with an
evaluation function, and `main`'s control flow becomes a pure function from
arguments and an environment snapshot to an exit code plus an event trace.
IPv4 addresses are `Nat` (the `int(ip)` form used by the code).  All
definitions are given first, followed by the theorems.
-/

namespace IpFiller

/-- An IPv4 CIDR network as parsed by `ip_network`: network (base) address and
prefix length.  `172.18.0.0/15` is `⟨2886860800, 15⟩`. -/
structure IPNetwork where
  base : Nat
  prefix_len : Nat
deriving DecidableEq, Repr

/-- `num_addresses` of an `ipaddress` network: `2 ^ (32 - prefixlen)`. -/
def numAddresses (n : IPNetwork) : Nat := 2 ^ (32 - n.prefix_len)

/-- `broadcast_address` of a network: last address of the block. -/
def broadcast_address (n : IPNetwork) : Nat := n.base + numAddresses n - 1

/-- Well-formedness of a parsed CIDR: prefix length at most 32, the base
address is 32-bit, and the host bits are zero (Python's `ip_network` with
the default `strict=True` rejects anything else). -/
def Wf (n : IPNetwork) : Prop :=
  n.prefix_len ≤ 32 ∧ n.base < 2 ^ 32 ∧ n.base % numAddresses n = 0

instance (n : IPNetwork) : Decidable (Wf n) := by unfold Wf; infer_instance

/-- Python `ip in network` for an address and an IPv4 network: the address
lies between the network address and the broadcast address. -/
def addressInNetwork (c : IPNetwork) (ip : Nat) : Bool :=
  decide (c.base ≤ ip ∧ ip ≤ broadcast_address c)

/-- `list(network.hosts())` as integers.  For prefixes up to /30 this is
every address except the network and broadcast addresses; `ipaddress`
special-cases /31 (both addresses) and /32 (the single address). -/
def hostsList (n : IPNetwork) : List Nat :=
  if 31 ≤ n.prefix_len then (List.range (numAddresses n)).map (fun i => n.base + i)
  else (List.range (numAddresses n - 2)).map (fun i => n.base + 1 + i)

/-- `get_expanded_network_ips` (ip_db_filler.py lines 56-64): all host IPs of
the expanded network plus its broadcast address, keeping those not contained
in the current network, as integers, in the order produced. -/
def get_expanded_network_ips (expanded_network current_network : IPNetwork) : List Nat :=
  (hostsList expanded_network ++ [broadcast_address expanded_network]).filter
    (fun ip => ! addressInNetwork current_network ip)

/-- The expanded network 172.18.0.0/15 hardcoded in `main` (line 357). -/
def net15 : IPNetwork := ⟨2886860800, 15⟩

/-- The current network 172.18.0.0/16 hardcoded in `main` (line 358). -/
def net16 : IPNetwork := ⟨2886860800, 16⟩

/-- Number of usable host addresses in the Python `hosts()` sense. -/
def hostCount (n : IPNetwork) : Nat := (hostsList n).length

/-!
The inventory table and the SQL artifacts.

A row of `ipaddress_inside_regional` carries the region name, the integer
address, the timestamp column (nullable in the Python code: `create_backup`
line 248 guards against a missing value) and the `inuse` flag.  Timestamps
are modelled as seconds since the epoch, so the sentinel
`'1970-01-01 00:00:00'` is `0`.
-/

/-- One row of `ipaddress_inside_regional`. -/
structure Row where
  region : String
  address : Nat
  timestamp : Option Nat
  inuse : Bool
deriving DecidableEq, Repr

/-- The statements the tool writes into its SQL artifacts.  `lockAcquire`
is the statement shape a region lock would take; the artifact builders below
never emit it. -/
inductive SqlStmt where
  | comment (s : String)
  | directive (s : String)
  | setForeignKeyChecks (enabled : Bool)
  | setUniqueChecks (enabled : Bool)
  | setAutocommit (enabled : Bool)
  | insertIgnore (rows : List Row)
  | deleteRegion (region : String)
  | insertRows (rows : List Row)
  | commit
  | lockAcquire (region : String)
deriving DecidableEq, Repr

/-- The rows of the `INSERT IGNORE` in `generate_dump_file` (lines 82-84):
one row per address, with the sentinel timestamp and `inuse = 0`. -/
def dumpRows (region : String) (ip_addresses : List Nat) : List Row :=
  ip_addresses.map (fun ip => ⟨region, ip, some 0, false⟩)

/-- `generate_dump_file` (lines 67-92), as the statement sequence written to
the temporary dump file. -/
def generate_dump_file (region : String) (ip_addresses : List Nat) : List SqlStmt :=
  [ .directive "SET @OLD_CHARACTER_SET_CLIENT=@@CHARACTER_SET_CLIENT",
    .directive "SET @OLD_CHARACTER_SET_RESULTS=@@CHARACTER_SET_RESULTS",
    .directive "SET @OLD_COLLATION_CONNECTION=@@COLLATION_CONNECTION",
    .directive "SET NAMES utf8",
    .setForeignKeyChecks false,
    .setUniqueChecks false,
    .setAutocommit false,
    .insertIgnore (dumpRows region ip_addresses),
    .setForeignKeyChecks true,
    .setUniqueChecks true,
    .setAutocommit true,
    .commit ]

/-- Whether a `(region, address)` key is already present in the table. -/
def keyPresent (table : List Row) (region : String) (address : Nat) : Bool :=
  table.any (fun r => r.region == region && r.address == address)

/-- One row of an `INSERT IGNORE`: insert-if-absent on the
`(region, address)` primary key; a duplicate key is silently skipped and
never raises an error. -/
def insertIgnoreRow (table : List Row) (r : Row) : List Row :=
  if keyPresent table r.region r.address then table else table ++ [r]

/-- The effect of a whole `INSERT IGNORE ... VALUES ...` statement. -/
def applyInsertIgnore (table : List Row) (rows : List Row) : List Row :=
  rows.foldl insertIgnoreRow table

/-- The effect of one statement on the table.  `SET` statements, comments,
conditional-comment directives and `COMMIT` do not change the row set. -/
def applyStmt (table : List Row) : SqlStmt → List Row
  | .insertIgnore rows => applyInsertIgnore table rows
  | .deleteRegion region => table.filter (fun r => ! (r.region == region))
  | .insertRows rows => table ++ rows
  | _ => table

/-- `load_dump` (lines 95-113): the mysql client replays the artifact's
statements in order against the database. -/
def load_dump (table : List Row) (stmts : List SqlStmt) : List Row :=
  stmts.foldl applyStmt table

/-- The rows of the given region, in table order (the `WHERE region = ...`
filter of the backup query, lines 210-215). -/
def regionRows (table : List Row) (region : String) : List Row :=
  table.filter (fun r => r.region == region)

/-- Serialization of one backed-up row (lines 246-249): a missing timestamp
is written out as the epoch sentinel `'1970-01-01 00:00:00'`. -/
def serializeRow (r : Row) : Row :=
  { r with timestamp := some (r.timestamp.getD 0) }

/-- `create_backup` (lines 196-259), reduced to the captured data: the
region's current rows ordered by address, as they will be reinserted by the
backup artifact; `none` is the "no backup produced" signal for a region with
zero rows. -/
def create_backup (table : List Row) (region : String) : Option (List Row) :=
  let existing := (regionRows table region).insertionSort (fun a b => a.address ≤ b.address)
  if existing.isEmpty then none else some (existing.map serializeRow)

/-- The statement sequence of a backup artifact (lines 224-256):
delete every row of the region, then reinsert the captured rows. -/
def backup_artifact (region : String) (rows : List Row) : List SqlStmt :=
  [ .comment "IP Address Backup",
    .comment ("Region: " ++ region),
    .comment ("Total Records: " ++ toString rows.length),
    .directive "SET @OLD_CHARACTER_SET_CLIENT=@@CHARACTER_SET_CLIENT",
    .directive "SET @OLD_CHARACTER_SET_RESULTS=@@CHARACTER_SET_RESULTS",
    .directive "SET @OLD_COLLATION_CONNECTION=@@COLLATION_CONNECTION",
    .directive "SET NAMES utf8",
    .setForeignKeyChecks false,
    .setUniqueChecks false,
    .setAutocommit false,
    .deleteRegion region,
    .insertRows rows,
    .setForeignKeyChecks true,
    .setUniqueChecks true,
    .setAutocommit true,
    .commit ]

/-- `rollback_operation` (lines 262-276): if the backup file does not exist,
report failure and mutate nothing; otherwise replay the artifact through the
same load path used for forward provisioning. -/
def rollback_operation (table : List Row) (backupExists : Bool)
    (artifact : List SqlStmt) : Option (List Row) :=
  if backupExists then some (load_dump table artifact) else none

/-- Whether a statement mutates the row set. -/
def isMutation : SqlStmt → Bool
  | .insertIgnore _ => true
  | .deleteRegion _ => true
  | .insertRows _ => true
  | _ => false

/-- Whether a statement is a lock acquisition (for any region). -/
def isLockStmt : SqlStmt → Bool
  | .lockAcquire _ => true
  | _ => false

/-- Whether a statement acquires the lock of the given region. -/
def isLockAcquire (region : String) : SqlStmt → Bool
  | .lockAcquire r => r == region
  | _ => false

/-- Scans a statement list and checks that every mutating statement is
strictly preceded by an acquisition of the given region's lock; `seen`
records whether such an acquisition has already passed. -/
def lockPrecedesMutations (region : String) : Bool → List SqlStmt → Bool
  | _, [] => true
  | seen, s :: rest =>
    (!isMutation s || seen) &&
      lockPrecedesMutations region (seen || isLockAcquire region s) rest

/-- Scans a statement list and checks that every mutating statement runs
while autocommit is disabled, i.e. inside an explicit transaction; `opened`
tracks the autocommit state (`true` while a transaction is open). -/
def mutationsInsideTxn : Bool → List SqlStmt → Bool
  | _, [] => true
  | _, .setAutocommit b :: rest => mutationsInsideTxn (!b) rest
  | opened, s :: rest => (!isMutation s || opened) && mutationsInsideTxn opened rest

/-- Every mutating statement is eventually followed by a `COMMIT`. -/
def commitFollowsMutations : List SqlStmt → Bool
  | [] => true
  | s :: rest =>
    (!isMutation s || rest.any (fun t => t == SqlStmt.commit)) &&
      commitFollowsMutations rest

/-!
The control flow of `main` (lines 314-438), embedded as a pure function.

The command-line arguments are an `Args` record; everything `main` observes
from the outside world during one run — the region catalog, the inventory
table, the filesystem, the credential store, the user's eventual answers to
the confirmation prompts, and whether the two mysql invocations succeed —
is snapshotted in a `World` record.  The run is summarized by its process
exit code (Python: `return` from `main` gives 0, `SystemExit(1)` and an
uncaught exception give 1, an argparse error gives 2) and the ordered trace
of externally visible effects.
-/

/-- One externally visible effect of a run.  `backupDelete`,
`flagRollbackUnavailable` and `lockAcquire` are shapes the code could emit
but never does. -/
inductive Event where
  | credentialFetch
  | regionQuery
  | tableQuery
  | note (msg : String)
  | backupDirCreate
  | backupWrite (region : String) (rows : List Row)
  | backupDelete (region : String)
  | dumpCreate (region : String) (ips : List Nat)
  | dumpDelete
  | dbLoadDump (region : String) (ips : List Nat)
  | dbLoadBackup (region : String) (rows : List Row)
  | dbLoadFile (path : String)
  | lockAcquire (region : String)
  | flagRollbackUnavailable
deriving DecidableEq, Repr

/-- The parsed command-line arguments (lines 315-324). -/
structure Args where
  env : String
  api_region : String
  db_region : Option String
  force : Bool
  rollback : Option String
  backup_dir : Option String
deriving DecidableEq, Repr

/-- Snapshot of everything outside the process that one run observes. -/
structure World where
  secretOk : Bool
  regions : List String
  table : List Row
  files : List String
  confirm : Bool
  rollbackConfirm : Bool
  loadOk : Bool
  rollbackLoadOk : Bool
deriving DecidableEq, Repr

/-- A run's observable outcome: process exit code and effect trace. -/
structure RunResult where
  exitCode : Nat
  events : List Event
deriving DecidableEq, Repr

/-- `validate_region` (lines 27-33): membership of the input region in the
region catalog. -/
def validate_region (regions : List String) (input_region : String) : Bool :=
  regions.contains input_region

/-- The credential fetch of `get_db_credentials` (lines 36-53) as a trace
prefix: the local environment uses a fixed credential without contacting the
secret store. -/
def credEvents (a : Args) : List Event :=
  if a.env != "local" then [.credentialFetch] else []

/-- Directory bookkeeping of `create_backup` (lines 198-201): the default
backup directory is created when absent; an explicit `--backup-dir` is used
as given. -/
def dirEvents (a : Args) (w : World) : List Event :=
  match a.backup_dir with
  | none => if w.files.contains "ip_backups" then [] else [.backupDirCreate]
  | some _ => []

/-- The control flow of `main`, parametrized by the two CIDR constants that
the source hardcodes in lines 357-358 (`mainCore net15 net16` is the actual
program; the parameters let the small-scale witnesses below exercise every
branch). -/
def mainCore (expanded_network current_network : IPNetwork)
    (a : Args) (w : World) : RunResult :=
  -- argparse: --db_region is required unless env is local (lines 325-326)
  if a.env != "local" && a.db_region.isNone then
    ⟨2, []⟩
  -- get_db_credentials (line 328): a missing secret raises SystemExit(1)
  else if a.env != "local" && !w.secretOk then
    ⟨1, [.credentialFetch, .note "Secret not found"]⟩
  else
  let ev0 := credEvents a
  match a.rollback with
  | some path =>
    -- rollback branch (lines 337-354); every path returns, exit code 0
    if !validate_region w.regions a.api_region then
      ⟨0, ev0 ++ [.regionQuery, .note "Region not found in database"]⟩
    else if !a.force && !w.rollbackConfirm then
      ⟨0, ev0 ++ [.regionQuery, .note "Rollback cancelled by user."]⟩
    else if !(w.files.contains path) then
      ⟨0, ev0 ++ [.regionQuery, .note "Backup file not found",
        .note "Rollback failed!"]⟩
    else if w.rollbackLoadOk then
      ⟨0, ev0 ++ [.regionQuery, .dbLoadFile path,
        .note "Rollback completed successfully!"]⟩
    else
      ⟨0, ev0 ++ [.regionQuery, .dbLoadFile path, .note "Rollback failed!"]⟩
  | none =>
    -- forward provisioning (lines 356-437)
    if !validate_region w.regions a.api_region then
      ⟨0, ev0 ++ [.regionQuery, .note "Region not found in database"]⟩
    else
    let new_ips := get_expanded_network_ips expanded_network current_network
    if new_ips.isEmpty then
      ⟨0, ev0 ++ [.regionQuery, .note "No new IP addresses to add."]⟩
    else
    let backup := create_backup w.table a.api_region
    let evB := ev0 ++ [.regionQuery] ++ dirEvents a w ++ [.tableQuery] ++
      (match backup with
       | none => [.note "No existing IP addresses found for region"]
       | some rows => [.backupWrite a.api_region rows, .note "Backup created"])
    if !a.force && !w.confirm then
      ⟨0, evB ++ [.note "Operation cancelled by user."]⟩
    else
    let evD := evB ++ [.dumpCreate a.api_region new_ips]
    if w.loadOk then
      ⟨0, evD ++ [.dbLoadDump a.api_region new_ips] ++
        (match backup with
         | some _ => [.note "Operation completed successfully!"]
         | none => []) ++ [.dumpDelete]⟩
    else
      -- load failed: the except branch (lines 415-433) re-raises, so the
      -- process exits 1; the finally block (435-437) still unlinks the dump
      match backup with
      | some rows =>
        if !a.force then
          if w.rollbackConfirm then
            if w.rollbackLoadOk then
              ⟨1, evD ++ [.dbLoadDump a.api_region new_ips,
                .dbLoadBackup a.api_region rows,
                .note "Rollback completed successfully!", .dumpDelete]⟩
            else
              ⟨1, evD ++ [.dbLoadDump a.api_region new_ips,
                .dbLoadBackup a.api_region rows,
                .note "Rollback failed! Manual intervention required.",
                .dumpDelete]⟩
          else
            ⟨1, evD ++ [.dbLoadDump a.api_region new_ips, .dumpDelete]⟩
        else
          ⟨1, evD ++ [.dbLoadDump a.api_region new_ips,
            .note "Backup file available for manual rollback at",
            .dumpDelete]⟩
      | none =>
        ⟨1, evD ++ [.dbLoadDump a.api_region new_ips, .dumpDelete]⟩

/-- `main` itself: `mainCore` at the hardcoded 172.18.0.0/15 → /16
expansion. -/
def main (a : Args) (w : World) : RunResult := mainCore net15 net16 a w

/-- Database writes: the three ways a run replays statements into mysql. -/
def isDbWrite : Event → Bool
  | .dbLoadDump _ _ => true
  | .dbLoadBackup _ _ => true
  | .dbLoadFile _ => true
  | _ => false

/-- Backup-artifact creation. -/
def isBackupWrite : Event → Bool
  | .backupWrite _ _ => true
  | _ => false

/-- Dump-artifact creation. -/
def isDumpCreate : Event → Bool
  | .dumpCreate _ _ => true
  | _ => false

/-- Dump-artifact deletion. -/
def isDumpDelete : Event → Bool
  | .dumpDelete => true
  | _ => false

/-- Backup-artifact deletion (never emitted by the code). -/
def isBackupDelete : Event → Bool
  | .backupDelete _ => true
  | _ => false

/-!
Theorems.
-/

section Counting

/-- Elements of `List.range n`, shifted by `a`, that land in `[lo, hi]`:
a closed interval-intersection count. -/
theorem countP_range_shift_interval (a lo hi n : Nat) :
    (List.range n).countP (fun i => decide (lo ≤ a + i ∧ a + i ≤ hi)) =
      min (a + n) (hi + 1) - max a (min (a + n) lo) := by
  induction n with
  | zero => simp
  | succ n ih =>
    rw [List.range_succ, List.countP_append, ih]
    have hsing : (List.countP (fun i => decide (lo ≤ a + i ∧ a + i ≤ hi)) [n]) =
        if lo ≤ a + n ∧ a + n ≤ hi then 1 else 0 := by
      by_cases h : lo ≤ a + n ∧ a + n ≤ hi <;> simp [h]
    rw [hsing]
    by_cases h : lo ≤ a + n ∧ a + n ≤ hi
    · rw [if_pos h]; omega
    · rw [if_neg h]; omega

/-- Counting the complement of a Boolean predicate over a list. -/
theorem countP_not_eq (p : α → Bool) (l : List α) :
    l.countP (fun x => ! p x) = l.length - l.countP p := by
  induction l with
  | nil => simp
  | cons x l ih =>
    rw [List.countP_cons, List.countP_cons, List.length_cons, ih]
    have := l.countP_le_length (p := p)
    by_cases h : p x <;> simp [h] <;> omega

/-- Closed form for the size of the delta returned by
`get_expanded_network_ips` when the current range lies inside the expanded
range.  When the two ranges share the same network address the expanded
range's network address is the only address of the current block that the
candidate list already omits, so the count is the difference of the block
sizes; when the current block starts strictly inside, all of its addresses
are removed from the candidates. -/
theorem get_expanded_length (e c : IPNetwork)
    (he : e.prefix_len ≤ 30) (hc : c.prefix_len ≤ 32)
    (h1 : e.base ≤ c.base) (h2 : c.base + numAddresses c ≤ e.base + numAddresses e) :
    (get_expanded_network_ips e c).length =
      if c.base = e.base then numAddresses e - numAddresses c
      else numAddresses e - 1 - numAddresses c := by
  have hN : 4 ≤ numAddresses e := by
    have h2' : 2 ≤ 32 - e.prefix_len := by omega
    calc (4:Nat) = 2 ^ 2 := by norm_num
    _ ≤ 2 ^ (32 - e.prefix_len) := Nat.pow_le_pow_right (by norm_num) h2'
    _ = numAddresses e := rfl
  have hM : 1 ≤ numAddresses c := Nat.one_le_two_pow
  have hne : ¬ 31 ≤ e.prefix_len := by omega
  rw [get_expanded_network_ips, hostsList, if_neg hne, ← List.countP_eq_length_filter,
    List.countP_append, List.countP_map]
  have hcomp : ((fun ip => ! addressInNetwork c ip) ∘ fun i => e.base + 1 + i) =
      fun i => ! decide (c.base ≤ e.base + 1 + i ∧ e.base + 1 + i ≤ broadcast_address c) := by
    funext i; rfl
  rw [hcomp, countP_not_eq, countP_range_shift_interval, List.length_range]
  have hsing : (List.countP (fun ip => ! addressInNetwork c ip)
      [broadcast_address e]) =
      if c.base ≤ broadcast_address e ∧ broadcast_address e ≤ broadcast_address c
      then 0 else 1 := by
    by_cases h : c.base ≤ broadcast_address e ∧ broadcast_address e ≤ broadcast_address c
    · have hf : addressInNetwork c (broadcast_address e) = true := decide_eq_true h
      rw [if_pos h]; simp [hf]
    · have hf : addressInNetwork c (broadcast_address e) = false := decide_eq_false h
      rw [if_neg h]; simp [hf]
  rw [hsing]
  unfold broadcast_address
  by_cases hbase : c.base = e.base
  · rw [if_pos hbase]
    by_cases hbc : c.base ≤ e.base + numAddresses e - 1 ∧
        e.base + numAddresses e - 1 ≤ c.base + numAddresses c - 1
    · rw [if_pos hbc]; omega
    · rw [if_neg hbc]; omega
  · rw [if_neg hbase]
    by_cases hbc : c.base ≤ e.base + numAddresses e - 1 ∧
        e.base + numAddresses e - 1 ≤ c.base + numAddresses c - 1
    · rw [if_pos hbc]; omega
    · rw [if_neg hbc]; omega

end Counting

section RangeDiffClaims

/-- Membership and ordering of the delta list.  The candidate list is every
address of the expanded block except its network address, strictly
increasing, and filtering preserves both facts. -/
theorem get_expanded_mem_sorted (e c : IPNetwork) (ip : Nat)
    (he : e.prefix_len ≤ 30) :
    (ip ∈ get_expanded_network_ips e c ↔
      (e.base + 1 ≤ ip ∧ ip ≤ broadcast_address e ∧
        ¬ (c.base ≤ ip ∧ ip ≤ broadcast_address c))) ∧
    List.Pairwise (· < ·) (get_expanded_network_ips e c) := by
  have hN : 4 ≤ numAddresses e := by
    have h2' : 2 ≤ 32 - e.prefix_len := by omega
    calc (4:Nat) = 2 ^ 2 := by norm_num
    _ ≤ 2 ^ (32 - e.prefix_len) := Nat.pow_le_pow_right (by norm_num) h2'
    _ = numAddresses e := rfl
  have hne : ¬ 31 ≤ e.prefix_len := by omega
  constructor
  · rw [get_expanded_network_ips, List.mem_filter, List.mem_append, hostsList,
      if_neg hne, List.mem_map]
    have hbool : ((! addressInNetwork c ip) = true) ↔
        ¬ (c.base ≤ ip ∧ ip ≤ broadcast_address c) := by
      simp only [addressInNetwork, Bool.not_eq_true', decide_eq_false_iff_not]
    constructor
    · rintro ⟨hmem, hflt⟩
      rw [hbool] at hflt
      rcases hmem with ⟨i, hi, rfl⟩ | hb
      · rw [List.mem_range] at hi
        unfold broadcast_address
        exact ⟨by omega, by omega, hflt⟩
      · rw [List.mem_singleton] at hb
        subst hb
        unfold broadcast_address
        exact ⟨by omega, by omega, hflt⟩
    · rintro ⟨hlo, hhi, hnot⟩
      refine ⟨?_, hbool.mpr hnot⟩
      by_cases hb : ip = broadcast_address e
      · right; rw [List.mem_singleton]; exact hb
      · left
        refine ⟨ip - (e.base + 1), ?_, ?_⟩
        · rw [List.mem_range]; unfold broadcast_address at hhi hb; omega
        · omega
  · apply List.Pairwise.sublist (List.filter_sublist _)
    rw [hostsList, if_neg hne, List.pairwise_append]
    refine ⟨(List.pairwise_lt_range _).map _ (fun a b hab => by omega), ?_, ?_⟩
    · simp
    · intro a ha b hb
      rw [List.mem_map] at ha
      rw [List.mem_singleton] at hb
      obtain ⟨i, hi, rfl⟩ := ha
      rw [List.mem_range] at hi
      subst hb
      unfold broadcast_address
      omega

/-- C1 (amended).  For valid superset pairs (expanded prefix at most /30),
the number of addresses returned by `get_expanded_network_ips` is
`numAddresses(expanded) − numAddresses(current)` when the two ranges share
the same network address, and `numAddresses(expanded) − 1 −
numAddresses(current)` otherwise; in host-count terms the broadcast-inclusive
"+1" cancels against the current range's broadcast address, which is an
ordinary host of the expanded range.  In particular, for
`expanded=172.18.0.0/15` and `current=172.18.0.0/16` the delta size is
`(2^17−2) − (2^16−2) = 65536`, not 65537. -/
theorem c1_delta_size (e c : IPNetwork)
    (he : e.prefix_len ≤ 30) (hc : c.prefix_len ≤ 32)
    (h1 : e.base ≤ c.base) (h2 : c.base + numAddresses c ≤ e.base + numAddresses e) :
    ((get_expanded_network_ips e c).length =
      if c.base = e.base then numAddresses e - numAddresses c
      else numAddresses e - 1 - numAddresses c) ∧
    (get_expanded_network_ips net15 net16).length = 65536 := by
  refine ⟨get_expanded_length e c he hc h1 h2, ?_⟩
  rw [get_expanded_length net15 net16 (by decide) (by decide) (by decide) (by decide)]
  decide

/-- Witness for C1 at the concrete pair `0.0.0.0/29 ⊇ 0.0.0.0/30`. -/
theorem c1_delta_size_witness :
    ((⟨0, 29⟩ : IPNetwork).prefix_len ≤ 30 ∧ (⟨0, 30⟩ : IPNetwork).prefix_len ≤ 32 ∧
      (⟨0, 29⟩ : IPNetwork).base ≤ (⟨0, 30⟩ : IPNetwork).base ∧
      (⟨0, 30⟩ : IPNetwork).base + numAddresses ⟨0, 30⟩ ≤
        (⟨0, 29⟩ : IPNetwork).base + numAddresses ⟨0, 29⟩) ∧
    ((get_expanded_network_ips ⟨0, 29⟩ ⟨0, 30⟩).length =
      if (⟨0, 30⟩ : IPNetwork).base = (⟨0, 29⟩ : IPNetwork).base
      then numAddresses ⟨0, 29⟩ - numAddresses ⟨0, 30⟩
      else numAddresses ⟨0, 29⟩ - 1 - numAddresses ⟨0, 30⟩) :=
  ⟨⟨by decide, by decide, by decide, by decide⟩,
    (c1_delta_size ⟨0, 29⟩ ⟨0, 30⟩ (by decide) (by decide) (by decide) (by decide)).1⟩

/-- Counterexample to C1 as stated: for `expanded=172.18.0.0/15`,
`current=172.18.0.0/16` the claimed size `(2^17−2) − (2^16−2) + 1 = 65537`
is wrong; the code returns 65536 addresses because the current range's
broadcast address `172.18.255.255` is itself one of the expanded range's
hosts and is filtered out along with the rest of the current block. -/
theorem c1_counterexample : (get_expanded_network_ips net15 net16).length ≠ 65537 := by
  rw [get_expanded_length net15 net16 (by decide) (by decide) (by decide) (by decide)]
  decide

/-- C5 (amended).  For superset pairs whose expanded prefix is at most /30,
`get_expanded_network_ips` returns exactly the integer addresses that are in
the expanded range's host set or are its broadcast address and are not
members of the current range, in strictly ascending order (hence with no
duplicates), and — being a pure function of its two arguments in this
embedding, as in the source — with no side effects.  For a /31 expanded
range the broadcast address duplicates one of Python's `hosts()` entries
and the returned list can contain a duplicate, so the /31 and /32 cases are
excluded. -/
theorem c5_exact_delta (e c : IPNetwork) (ip : Nat)
    (he : e.prefix_len ≤ 30)
    (h1 : e.base ≤ c.base) (h2 : c.base + numAddresses c ≤ e.base + numAddresses e) :
    (ip ∈ get_expanded_network_ips e c ↔
      (e.base + 1 ≤ ip ∧ ip ≤ broadcast_address e ∧
        ¬ (c.base ≤ ip ∧ ip ≤ broadcast_address c))) ∧
    List.Pairwise (· < ·) (get_expanded_network_ips e c) :=
  get_expanded_mem_sorted e c ip he

/-- Witness for C5 at `0.0.0.0/29 ⊇ 0.0.0.0/30` and address 4. -/
theorem c5_exact_delta_witness :
    ((⟨0, 29⟩ : IPNetwork).prefix_len ≤ 30 ∧
      (⟨0, 29⟩ : IPNetwork).base ≤ (⟨0, 30⟩ : IPNetwork).base ∧
      (⟨0, 30⟩ : IPNetwork).base + numAddresses ⟨0, 30⟩ ≤
        (⟨0, 29⟩ : IPNetwork).base + numAddresses ⟨0, 29⟩) ∧
    ((4 ∈ get_expanded_network_ips ⟨0, 29⟩ ⟨0, 30⟩ ↔
      ((⟨0, 29⟩ : IPNetwork).base + 1 ≤ 4 ∧ 4 ≤ broadcast_address ⟨0, 29⟩ ∧
        ¬ ((⟨0, 30⟩ : IPNetwork).base ≤ 4 ∧ 4 ≤ broadcast_address ⟨0, 30⟩))) ∧
    List.Pairwise (· < ·) (get_expanded_network_ips ⟨0, 29⟩ ⟨0, 30⟩)) :=
  ⟨⟨by decide, by decide, by decide⟩,
    c5_exact_delta ⟨0, 29⟩ ⟨0, 30⟩ 4 (by decide) (by decide) (by decide)⟩

/-- Counterexample to C5 as stated: for the superset pair
`0.0.0.0/31 ⊇ 0.0.0.0/32`, Python's `hosts()` for a /31 already contains the
broadcast address, so the code returns the address 1 twice — the output is
`[1, 1]`, which is not duplicate-free. -/
theorem c5_counterexample :
    (⟨0, 31⟩ : IPNetwork).base ≤ (⟨0, 32⟩ : IPNetwork).base ∧
    (⟨0, 32⟩ : IPNetwork).base + numAddresses ⟨0, 32⟩ ≤
      (⟨0, 31⟩ : IPNetwork).base + numAddresses ⟨0, 31⟩ ∧
    get_expanded_network_ips ⟨0, 31⟩ ⟨0, 32⟩ = [1, 1] ∧
    ¬ (get_expanded_network_ips ⟨0, 31⟩ ⟨0, 32⟩).Nodup := by
  refine ⟨by decide, by decide, by decide, ?_⟩
  decide

end RangeDiffClaims

section InsertIgnoreLemmas

/-- Appending rows never removes a present key. -/
theorem keyPresent_append (t l : List Row) (reg : String) (a : Nat)
    (h : keyPresent t reg a = true) : keyPresent (t ++ l) reg a = true := by
  unfold keyPresent at *
  rw [List.any_append, h, Bool.true_or]

/-- `insertIgnoreRow` never removes a present key. -/
theorem keyPresent_insertIgnoreRow (t : List Row) (x : Row) (reg : String) (a : Nat)
    (h : keyPresent t reg a = true) : keyPresent (insertIgnoreRow t x) reg a = true := by
  unfold insertIgnoreRow
  split
  · exact h
  · exact keyPresent_append t [x] reg a h

/-- `applyInsertIgnore` never removes a present key. -/
theorem keyPresent_applyInsertIgnore (rows t : List Row) (reg : String) (a : Nat)
    (h : keyPresent t reg a = true) :
    keyPresent (applyInsertIgnore t rows) reg a = true := by
  induction rows generalizing t with
  | nil => exact h
  | cons x rs ih => exact ih _ (keyPresent_insertIgnoreRow t x reg a h)

/-- After `insertIgnoreRow t x`, the key of `x` is present. -/
theorem keyPresent_insertIgnoreRow_self (t : List Row) (x : Row) :
    keyPresent (insertIgnoreRow t x) x.region x.address = true := by
  unfold insertIgnoreRow
  split
  · assumption
  · unfold keyPresent
    rw [List.any_append]
    simp

/-- After `applyInsertIgnore`, every inserted row's key is present. -/
theorem keyPresent_applyInsertIgnore_self (rows : List Row) (t : List Row) (r : Row)
    (h : r ∈ rows) : keyPresent (applyInsertIgnore t rows) r.region r.address = true := by
  induction rows generalizing t with
  | nil => cases h
  | cons x rs ih =>
    rcases List.mem_cons.mp h with rfl | hmem
    · exact keyPresent_applyInsertIgnore rs _ _ _ (keyPresent_insertIgnoreRow_self t r)
    · exact ih _ hmem

/-- An `INSERT IGNORE` whose keys are all already present is a no-op. -/
theorem applyInsertIgnore_of_present (rows t : List Row)
    (h : ∀ r ∈ rows, keyPresent t r.region r.address = true) :
    applyInsertIgnore t rows = t := by
  induction rows with
  | nil => rfl
  | cons x rs ih =>
    show applyInsertIgnore (insertIgnoreRow t x) rs = t
    rw [show insertIgnoreRow t x = t from by
      unfold insertIgnoreRow; rw [if_pos (h x (List.mem_cons_self x rs))]]
    exact ih (fun r hr => h r (List.mem_cons_of_mem x hr))

/-- `applyInsertIgnore` is idempotent. -/
theorem applyInsertIgnore_idem (t rows : List Row) :
    applyInsertIgnore (applyInsertIgnore t rows) rows = applyInsertIgnore t rows :=
  applyInsertIgnore_of_present rows _
    (fun r hr => keyPresent_applyInsertIgnore_self rows t r hr)

/-- Replaying a dump artifact only performs its `INSERT IGNORE`. -/
theorem load_dump_generate (table : List Row) (region : String) (ips : List Nat) :
    load_dump table (generate_dump_file region ips) =
      applyInsertIgnore table (dumpRows region ips) := rfl

end InsertIgnoreLemmas

/-- C4 (confirmed).  Replaying the artifact produced by `generate_dump_file`
twice in succession yields the same final row set as replaying it once, and
a row already present under the same `(region, address)` key is left
unchanged by the insert-if-absent step — totally, without any conflict-error
outcome (the `applyStmt` semantics of `INSERT IGNORE` is a total function). -/
theorem c4_dump_idempotent (region : String) (ips : List Nat) (table : List Row) :
    (load_dump (load_dump table (generate_dump_file region ips))
        (generate_dump_file region ips) =
      load_dump table (generate_dump_file region ips)) ∧
    (∀ r : Row, keyPresent table r.region r.address = true →
      insertIgnoreRow table r = table) := by
  constructor
  · rw [load_dump_generate, load_dump_generate]
    exact applyInsertIgnore_idem table (dumpRows region ips)
  · intro r h
    unfold insertIgnoreRow
    rw [if_pos h]

/-- Witness for C4: a nonempty table in which the dump keys partly collide. -/
theorem c4_dump_idempotent_witness :
    (load_dump (load_dump [⟨"r", 1, some 0, false⟩] (generate_dump_file "r" [1, 2]))
        (generate_dump_file "r" [1, 2]) =
      load_dump [⟨"r", 1, some 0, false⟩] (generate_dump_file "r" [1, 2])) ∧
    (keyPresent [⟨"r", 1, some 0, false⟩] "r" 1 = true ∧
      insertIgnoreRow [⟨"r", 1, some 0, false⟩] ⟨"r", 1, some 0, false⟩ =
        [⟨"r", 1, some 0, false⟩]) :=
  ⟨(c4_dump_idempotent "r" [1, 2] [⟨"r", 1, some 0, false⟩]).1,
    by decide,
    (c4_dump_idempotent "r" [1, 2] [⟨"r", 1, some 0, false⟩]).2
      ⟨"r", 1, some 0, false⟩ (by decide)⟩

section BackupRoundTrip

/-- Serialization is the identity on rows with a present timestamp. -/
theorem serializeRow_of_some (r : Row) (h : r.timestamp ≠ none) :
    serializeRow r = r := by
  obtain ⟨reg, a, ts, u⟩ := r
  cases ts with
  | none => exact absurd rfl h
  | some t => rfl

/-- Replaying a backup artifact deletes the region's rows and reinserts the
captured ones. -/
theorem load_dump_backup (table : List Row) (region : String) (rows : List Row) :
    load_dump table (backup_artifact region rows) =
      table.filter (fun r => ! (r.region == region)) ++ rows := rfl

/-- C3 (amended).  For a region with at least one existing row, capturing a
snapshot with `create_backup`, running forward provisioning
(`generate_dump_file` + `load_dump`), and then replaying the snapshot
through the same load path restores exactly the pre-operation row set for
that region — including each row's original timestamp and `inuse` flag —
provided every pre-existing row of the region has a non-null timestamp.
A null timestamp is serialized as the epoch sentinel (line 248), so such a
row comes back with the sentinel instead of its original null. -/
theorem c3_backup_roundtrip (table : List Row) (region : String) (ips : List Nat)
    (rows : List Row)
    (hts : ∀ r ∈ regionRows table region, r.timestamp ≠ none)
    (hbk : create_backup table region = some rows) :
    (regionRows (load_dump (load_dump table (generate_dump_file region ips))
        (backup_artifact region rows)) region).Perm (regionRows table region) := by
  unfold create_backup at hbk
  set sorted := (regionRows table region).insertionSort (fun a b => a.address ≤ b.address)
    with hsorted
  have hperm : sorted.Perm (regionRows table region) :=
    List.perm_insertionSort _ _
  by_cases hemp : sorted.isEmpty
  · rw [if_pos hemp] at hbk; cases hbk
  · rw [if_neg hemp] at hbk
    have hrows : rows = sorted.map serializeRow := by
      injection hbk with h; exact h.symm
    have hser : sorted.map serializeRow = sorted := by
      have hmc : sorted.map serializeRow = sorted.map id :=
        List.map_congr_left
          (fun r hr => serializeRow_of_some r (hts r (hperm.mem_iff.mp hr)))
      rw [hmc, List.map_id]
    rw [load_dump_backup, hrows, hser]
    unfold regionRows
    rw [List.filter_append, List.filter_filter]
    have hfalse : (fun r : Row => (r.region == region) && ! (r.region == region)) =
        fun _ => false := by
      funext r; cases h : r.region == region <;> simp [h]
    rw [hfalse, List.filter_false, List.nil_append]
    have hall : ∀ r ∈ sorted, (r.region == region) = true := by
      intro r hr
      have hmem : r ∈ regionRows table region := hperm.mem_iff.mp hr
      exact (List.mem_filter.mp hmem).2
    rw [List.filter_eq_self.mpr hall]
    exact hperm

/-- Witness for C3: a one-row region with a concrete non-null timestamp. -/
theorem c3_backup_roundtrip_witness :
    ((∀ r ∈ regionRows [⟨"r", 5, some 7, true⟩] "r", r.timestamp ≠ none) ∧
      create_backup [⟨"r", 5, some 7, true⟩] "r" = some [⟨"r", 5, some 7, true⟩]) ∧
    (regionRows (load_dump (load_dump [⟨"r", 5, some 7, true⟩]
        (generate_dump_file "r" [6])) (backup_artifact "r" [⟨"r", 5, some 7, true⟩]))
      "r").Perm (regionRows [⟨"r", 5, some 7, true⟩] "r") :=
  ⟨⟨by decide, by decide⟩,
    c3_backup_roundtrip [⟨"r", 5, some 7, true⟩] "r" [6] [⟨"r", 5, some 7, true⟩]
      (by decide) (by decide)⟩

/-- Counterexample to C3 as stated: a region whose single row has a null
timestamp.  `create_backup` serializes the null as the epoch sentinel
(line 248), so the forward-then-rollback round trip returns the row with
timestamp `some 0` instead of the original `none`: the restored row set is
not the pre-operation row set. -/
theorem c3_counterexample :
    create_backup [⟨"r", 5, none, false⟩] "r" = some [⟨"r", 5, some 0, false⟩] ∧
    ¬ (regionRows (load_dump (load_dump [⟨"r", 5, none, false⟩]
        (generate_dump_file "r" [6])) (backup_artifact "r" [⟨"r", 5, some 0, false⟩]))
      "r").Perm (regionRows [⟨"r", 5, none, false⟩] "r") := by
  constructor
  · decide
  · decide

end BackupRoundTrip

section LockClaims

/-- C2 (amended).  Both write artifacts — the forward dump that `load_dump`
replays and the backup artifact that the rollback replays — run their
mutating statements inside a single explicit transaction (autocommit is
disabled before any mutation and a `COMMIT` follows them), but neither
artifact, and nothing else in the program, ever acquires a region lock:
no exclusive lock precedes the mutations, and there is consequently no
lock-contention behavior between concurrent runs. -/
theorem c2_no_region_lock (region : String) (ips : List Nat) (rows : List Row) :
    ((generate_dump_file region ips).all (fun s => ! isLockStmt s) = true ∧
      (backup_artifact region rows).all (fun s => ! isLockStmt s) = true) ∧
    (mutationsInsideTxn false (generate_dump_file region ips) = true ∧
      mutationsInsideTxn false (backup_artifact region rows) = true) ∧
    (commitFollowsMutations (generate_dump_file region ips) = true ∧
      commitFollowsMutations (backup_artifact region rows) = true) :=
  ⟨⟨rfl, rfl⟩, ⟨rfl, rfl⟩, rfl, rfl⟩

/-- Counterexample to C2 as stated: the forward bulk-load artifact for a
concrete region contains a mutating statement (the `INSERT IGNORE`), yet no
lock acquisition for that region precedes it — the code never takes any
lock, so the claimed lock-then-mutate ordering is violated on every run. -/
theorem c2_counterexample :
    (generate_dump_file "us-east-1" [1, 2, 3]).any isMutation = true ∧
    lockPrecedesMutations "us-east-1" false
      (generate_dump_file "us-east-1" [1, 2, 3]) = false :=
  ⟨rfl, rfl⟩

end LockClaims

section MainTrace

/-- The credential-fetch prefix satisfies any predicate that accepts
`credentialFetch`. -/
theorem credEvents_safe (a : Args) (p : Event → Bool)
    (h1 : p Event.credentialFetch = true) : (credEvents a).all p = true := by
  unfold credEvents
  split <;> simp [h1]

/-- The directory-bookkeeping prefix satisfies any predicate that accepts
`backupDirCreate`. -/
theorem dirEvents_safe (a : Args) (w : World) (p : Event → Bool)
    (h1 : p Event.backupDirCreate = true) : (dirEvents a w).all p = true := by
  unfold dirEvents
  split
  · split <;> simp [h1]
  · rfl

/-- C7 (confirmed).  Whenever the target region is absent from the region
catalog, `main` aborts before any mutation, on the rollback path and on the
forward path alike: the run performs no database write, writes no backup
artifact, and generates no dump artifact (credential fetching and the
catalog read are the only effects). -/
theorem c7_region_absent_no_mutation (e c : IPNetwork) (a : Args) (w : World)
    (h : validate_region w.regions a.api_region = false) :
    (mainCore e c a w).events.all
      (fun ev => !isDbWrite ev && !isBackupWrite ev && !isDumpCreate ev) = true := by
  unfold mainCore
  split
  · rfl
  split
  · rfl
  cases a.rollback with
  | some path =>
    simp only [h, Bool.not_false, if_true, List.all_append]
    rw [credEvents_safe a _ rfl]
    rfl
  | none =>
    simp only [h, Bool.not_false, if_true, List.all_append]
    rw [credEvents_safe a _ rfl]
    rfl

/-- Witness for C7: a concrete run of `main` itself (the hardcoded /15→/16
expansion) against a catalog that lacks the requested region. -/
theorem c7_region_absent_no_mutation_witness :
    validate_region ["us-east-1"] "mars-1" = false ∧
    (mainCore net15 net16
      ⟨"local", "mars-1", none, true, none, none⟩
      ⟨true, ["us-east-1"], [], [], true, true, true, true⟩).events.all
      (fun ev => !isDbWrite ev && !isBackupWrite ev && !isDumpCreate ev) = true :=
  ⟨by decide,
    c7_region_absent_no_mutation net15 net16
      ⟨"local", "mars-1", none, true, none, none⟩
      ⟨true, ["us-east-1"], [], [], true, true, true, true⟩ (by decide)⟩

/-- The credential-fetch prefix contains no event accepted by a predicate
that rejects `credentialFetch`. -/
theorem credEvents_none (a : Args) (p : Event → Bool)
    (h1 : p Event.credentialFetch = false) : (credEvents a).any p = false := by
  unfold credEvents
  split <;> simp [h1]

/-- The directory-bookkeeping prefix contains no event accepted by a
predicate that rejects `backupDirCreate`. -/
theorem dirEvents_none (a : Args) (w : World) (p : Event → Bool)
    (h1 : p Event.backupDirCreate = false) : (dirEvents a w).any p = false := by
  unfold dirEvents
  split
  · split <;> simp [h1]
  · rfl

/-- Membership in the credential-fetch prefix. -/
theorem mem_credEvents (a : Args) (x : Event) :
    x ∈ credEvents a ↔ (a.env != "local") = true ∧ x = Event.credentialFetch := by
  unfold credEvents
  split <;> simp_all

/-- Membership in the directory-bookkeeping prefix. -/
theorem mem_dirEvents (a : Args) (w : World) (x : Event) :
    x ∈ dirEvents a w ↔
      (a.backup_dir = none ∧ w.files.contains "ip_backups" = false ∧
        x = Event.backupDirCreate) := by
  unfold dirEvents
  rcases a.backup_dir with _ | d
  · split <;> simp_all
  · simp

/-- Checking a negated predicate with `all` is the negation of `any`. -/
theorem all_not_eq_not_any (p : α → Bool) (l : List α) :
    l.all (fun x => ! p x) = ! l.any p := by
  induction l with
  | nil => rfl
  | cons x l ih =>
    rw [List.all_cons, List.any_cons, ih]
    cases p x <;> simp

set_option maxHeartbeats 2000000 in
/-- C9 (confirmed).  On every exit path of `main` — success, failure, user
cancellation, rollback mode, or abort during validation — a temporary dump
artifact is created during the run exactly when it is also deleted before
the run ends (the `finally` block of lines 435-437), and no path ever
deletes a backup artifact: backups are retained past the run's lifetime. -/
theorem c9_artifact_lifecycle (e c : IPNetwork) (a : Args) (w : World) :
    ((mainCore e c a w).events.any isDumpCreate =
      (mainCore e c a w).events.any isDumpDelete) ∧
    (mainCore e c a w).events.all (fun ev => !isBackupDelete ev) = true := by
  rw [all_not_eq_not_any]
  refine ⟨?_, ?_⟩ <;>
  · unfold mainCore
    split
    · rfl
    split
    · rfl
    cases a.rollback
    all_goals repeat' split
    all_goals
      first
      | simp [List.any_append, credEvents_none, dirEvents_none, mem_credEvents,
          mem_dirEvents, isDumpCreate, isDumpDelete, isBackupDelete]
      | skip
    all_goals repeat' split
    all_goals
      first
      | simp [List.any_append, credEvents_none, dirEvents_none, mem_credEvents,
          mem_dirEvents, isDumpCreate, isDumpDelete, isBackupDelete]
      | skip
    all_goals
      intro x hx
      cases x <;> simp_all

set_option maxHeartbeats 2000000 in
/-- C10 (confirmed).  Whenever the computed delta is empty, a validated
forward run returns immediately after printing the notice — exit code 0,
with no backup creation, no dump generation, and no database write — and on
every run whatsoever, `generate_dump_file` is only ever invoked with a
nonempty address list (its artifact for an empty list would be a `VALUES`
clause with no rows). -/
theorem c10_empty_delta (e c : IPNetwork) (a : Args) (w : World) :
    ((get_expanded_network_ips e c).isEmpty = true → a.rollback = none →
      (a.env = "local" ∨ (a.db_region ≠ none ∧ w.secretOk = true)) →
      validate_region w.regions a.api_region = true →
      (mainCore e c a w).exitCode = 0 ∧
      Event.note "No new IP addresses to add." ∈ (mainCore e c a w).events ∧
      (mainCore e c a w).events.all
        (fun ev => !isDbWrite ev && !isBackupWrite ev && !isDumpCreate ev) = true) ∧
    (∀ r ips, Event.dumpCreate r ips ∈ (mainCore e c a w).events → ips ≠ []) := by
  constructor
  · intro hemp hrb hcred hreg
    have h1 : (a.env != "local" && a.db_region.isNone) = false := by
      rcases hcred with h | ⟨h, _⟩
      · simp [h]
      · rcases hdbr : a.db_region with _ | v
        · exact absurd hdbr h
        · simp [hdbr]
    have h2 : (a.env != "local" && !w.secretOk) = false := by
      rcases hcred with h | ⟨_, h⟩
      · simp [h]
      · simp [h]
    unfold mainCore
    simp only [h1, h2, Bool.false_eq_true, if_false, hrb, hreg, Bool.not_true,
      hemp, if_true]
    refine ⟨trivial, ?_, ?_⟩
    · simp
    · simp only [List.all_append]
      rw [credEvents_safe a _ rfl]
      rfl
  · have hq : (mainCore e c a w).events.any
        (fun ev => match ev with
          | Event.dumpCreate _ l => l.isEmpty
          | _ => false) = false := by
      unfold mainCore
      split
      · rfl
      split
      · rfl
      cases a.rollback
      all_goals repeat' split
      all_goals
        first
        | simp_all [List.any_append, credEvents_none, dirEvents_none]
        | skip
      all_goals repeat' split
      all_goals
        first
        | simp_all [List.any_append, credEvents_none, dirEvents_none]
        | skip
      all_goals
        intro x hx
        cases x <;> simp_all [List.isEmpty_iff, mem_credEvents, mem_dirEvents]
    intro r ips hmem
    have hf : ips.isEmpty = false := by
      have hall := List.any_eq_false.mp hq
      have hne := hall _ hmem
      simpa using hne
    intro hcontra
    rw [hcontra] at hf
    simp at hf

/-- Witness for C10: the empty-delta branch at `0.0.0.0/30` expanded to
itself, and a nonempty-delta run at `0.0.0.0/29 ⊇ 0.0.0.0/30`. -/
theorem c10_empty_delta_witness :
    ((get_expanded_network_ips ⟨0, 30⟩ ⟨0, 30⟩).isEmpty = true ∧
      validate_region ["us-east-1"] "us-east-1" = true) ∧
    (mainCore ⟨0, 30⟩ ⟨0, 30⟩ ⟨"local", "us-east-1", none, true, none, none⟩
      ⟨true, ["us-east-1"], [], [], true, true, true, true⟩).exitCode = 0 ∧
    (Event.dumpCreate "us-east-1" [4, 5, 6, 7] ∈
      (mainCore ⟨0, 29⟩ ⟨0, 30⟩ ⟨"local", "us-east-1", none, true, none, none⟩
        ⟨true, ["us-east-1"], [], [], true, true, true, true⟩).events ∧
      [4, 5, 6, 7] ≠ ([] : List Nat)) :=
  ⟨⟨by decide, by decide⟩,
    ((c10_empty_delta ⟨0, 30⟩ ⟨0, 30⟩ ⟨"local", "us-east-1", none, true, none, none⟩
      ⟨true, ["us-east-1"], [], [], true, true, true, true⟩).1
      (by decide) rfl (Or.inl rfl) (by decide)).1,
    by decide,
    (c10_empty_delta ⟨0, 29⟩ ⟨0, 30⟩ ⟨"local", "us-east-1", none, true, none, none⟩
      ⟨true, ["us-east-1"], [], [], true, true, true, true⟩).2
      "us-east-1" [4, 5, 6, 7] (by decide)⟩

set_option maxHeartbeats 1000000 in
/-- C6 (amended).  The process exits 0 on success; a missing secret exits 1
(`SystemExit(1)`, the only distinct code); an absent target region, a
missing rollback backup file, and a user cancellation all exit 0 as well —
`main` merely logs and returns — so the failure classes do not each map to
a distinct nonzero code; and there is no lock-contention exit because no
lock exists (a missing `--db_region` outside local is the argparse error,
code 2). -/
theorem c6_exit_codes (e c : IPNetwork) (a : Args) (w : World) :
    (a.env ≠ "local" → a.db_region ≠ none → w.secretOk = false →
      (mainCore e c a w).exitCode = 1) ∧
    ((a.env = "local" ∨ (a.db_region ≠ none ∧ w.secretOk = true)) →
      validate_region w.regions a.api_region = false →
      (mainCore e c a w).exitCode = 0) ∧
    (∀ path, a.rollback = some path →
      (a.env = "local" ∨ (a.db_region ≠ none ∧ w.secretOk = true)) →
      validate_region w.regions a.api_region = true →
      (a.force = true ∨ w.rollbackConfirm = true) →
      w.files.contains path = false →
      (mainCore e c a w).exitCode = 0) ∧
    (a.rollback = none →
      (a.env = "local" ∨ (a.db_region ≠ none ∧ w.secretOk = true)) →
      validate_region w.regions a.api_region = true →
      (a.force = true ∨ w.confirm = true) → w.loadOk = true →
      (mainCore e c a w).exitCode = 0) := by
  have hcnd : (a.env = "local" ∨ (a.db_region ≠ none ∧ w.secretOk = true)) →
      (a.env != "local" && a.db_region.isNone) = false ∧
      (a.env != "local" && !w.secretOk) = false := by
    intro hcred
    constructor
    · rcases hcred with h | ⟨h, _⟩
      · simp [h]
      · rcases hdbr : a.db_region with _ | v
        · exact absurd hdbr h
        · simp [hdbr]
    · rcases hcred with h | ⟨_, h⟩ <;> simp [h]
  refine ⟨?_, ?_, ?_, ?_⟩
  · intro h1 h2 h3
    have he : (a.env != "local") = true := by simp [h1]
    have hdb : a.db_region.isNone = false := by
      rcases hdbr : a.db_region with _ | v
      · exact absurd hdbr h2
      · rfl
    unfold mainCore
    simp [he, hdb, h3]
  · intro hcred hreg
    obtain ⟨h1, h2⟩ := hcnd hcred
    unfold mainCore
    cases a.rollback <;> simp [h1, h2, hreg]
  · intro path hrb hcred hreg hconf hfile
    obtain ⟨h1, h2⟩ := hcnd hcred
    have hcf : (!a.force && !w.rollbackConfirm) = false := by
      rcases hconf with h | h <;> simp [h]
    unfold mainCore
    simp only [h1, h2, Bool.false_eq_true, if_false, hrb]
    simp [hreg, hcf, hfile]
    repeat' split
    all_goals rfl
  · intro hrb hcred hreg hconf hload
    obtain ⟨h1, h2⟩ := hcnd hcred
    have hcf : (!a.force && !w.confirm) = false := by
      rcases hconf with h | h <;> simp [h]
    unfold mainCore
    simp only [h1, h2, Bool.false_eq_true, if_false, hrb]
    simp [hreg, hcf, hload]
    repeat' split
    all_goals simp

/-- Witness for C6: all four exit-code classes at concrete inputs. -/
theorem c6_exit_codes_witness :
    (mainCore ⟨0, 29⟩ ⟨0, 30⟩ ⟨"dev", "us-east-1", some "eu-west-1", true, none, none⟩
      ⟨false, ["us-east-1"], [], [], true, true, true, true⟩).exitCode = 1 ∧
    (mainCore ⟨0, 29⟩ ⟨0, 30⟩ ⟨"local", "mars-1", none, true, none, none⟩
      ⟨true, ["us-east-1"], [], [], true, true, true, true⟩).exitCode = 0 ∧
    (mainCore ⟨0, 29⟩ ⟨0, 30⟩ ⟨"local", "us-east-1", none, true, some "missing.sql", none⟩
      ⟨true, ["us-east-1"], [], [], true, true, true, true⟩).exitCode = 0 ∧
    (mainCore ⟨0, 29⟩ ⟨0, 30⟩ ⟨"local", "us-east-1", none, true, none, none⟩
      ⟨true, ["us-east-1"], [], [], true, true, true, true⟩).exitCode = 0 :=
  ⟨(c6_exit_codes ⟨0, 29⟩ ⟨0, 30⟩ _ _).1 (by decide) (by decide) rfl,
    (c6_exit_codes ⟨0, 29⟩ ⟨0, 30⟩ _ _).2.1 (Or.inl rfl) (by decide),
    (c6_exit_codes ⟨0, 29⟩ ⟨0, 30⟩ _ _).2.2.1 "missing.sql" rfl (Or.inl rfl)
      (by decide) (Or.inl rfl) (by decide),
    (c6_exit_codes ⟨0, 29⟩ ⟨0, 30⟩ _ _).2.2.2 rfl (Or.inl rfl) (by decide)
      (Or.inl rfl) rfl⟩

/-- Counterexample to C6 as stated: a run whose target region is absent from
the catalog — a failure of the RegionNotFoundError class — exits with code
0, not a distinct nonzero code: `main` (lines 362-364) merely logs the error
and returns, and the Python process exits 0 on a plain return. -/
theorem c6_counterexample :
    validate_region ["us-east-1"] "mars-1" = false ∧
    (main ⟨"local", "mars-1", none, true, none, none⟩
      ⟨true, ["us-east-1"], [], [], true, true, true, true⟩).exitCode = 0 :=
  ⟨by decide, rfl⟩

set_option maxHeartbeats 1000000 in
/-- C8 (amended).  For a region with zero existing rows, `create_backup`
returns the explicit no-backup signal (`None`) without error and writes no
backup artifact, and forward provisioning still proceeds (a dump artifact is
generated and loaded); but the only operator-visible signal is
`create_backup`'s "no existing IP addresses" warning — `main` never emits an
explicit "rollback unavailable" flag (it simply skips all of its
backup-related messages when no backup exists). -/
theorem c8_zero_rows (e c : IPNetwork) (a : Args) (w : World)
    (hrb : a.rollback = none)
    (hcred : a.env = "local" ∨ (a.db_region ≠ none ∧ w.secretOk = true))
    (hreg : validate_region w.regions a.api_region = true)
    (hempty : regionRows w.table a.api_region = [])
    (hips : (get_expanded_network_ips e c).isEmpty = false)
    (hforce : a.force = true) :
    create_backup w.table a.api_region = none ∧
    (mainCore e c a w).events.all (fun ev => !isBackupWrite ev) = true ∧
    Event.note "No existing IP addresses found for region" ∈ (mainCore e c a w).events ∧
    (∃ ips, Event.dumpCreate a.api_region ips ∈ (mainCore e c a w).events) ∧
    Event.flagRollbackUnavailable ∉ (mainCore e c a w).events := by
  have hbk : create_backup w.table a.api_region = none := by
    unfold create_backup
    rw [hempty]
    rfl
  have h1 : (a.env != "local" && a.db_region.isNone) = false := by
    rcases hcred with h | ⟨h, _⟩
    · simp [h]
    · rcases hdbr : a.db_region with _ | v
      · exact absurd hdbr h
      · simp [hdbr]
  have h2 : (a.env != "local" && !w.secretOk) = false := by
    rcases hcred with h | ⟨_, h⟩ <;> simp [h]
  refine ⟨hbk, ?_, ?_, ?_, ?_⟩
  · unfold mainCore
    simp only [h1, h2, Bool.false_eq_true, if_false, hrb, hreg, Bool.not_true,
      hips, hbk, hforce, Bool.not_false, Bool.false_and]
    repeat' split
    all_goals
      rw [all_not_eq_not_any]
      simp [List.any_append, credEvents_none, dirEvents_none, isBackupWrite]
  · unfold mainCore
    simp only [h1, h2, Bool.false_eq_true, if_false, hrb, hreg, Bool.not_true,
      hips, hbk, hforce, Bool.not_false, Bool.false_and]
    repeat' split
    all_goals simp [List.mem_append]
  · unfold mainCore
    simp only [h1, h2, Bool.false_eq_true, if_false, hrb, hreg, Bool.not_true,
      hips, hbk, hforce, Bool.not_false, Bool.false_and]
    repeat' split
    all_goals exact ⟨get_expanded_network_ips e c, by simp [List.mem_append]⟩
  · unfold mainCore
    simp only [h1, h2, Bool.false_eq_true, if_false, hrb, hreg, Bool.not_true,
      hips, hbk, hforce, Bool.not_false, Bool.false_and]
    repeat' split
    all_goals simp [List.mem_append, mem_credEvents, mem_dirEvents]

/-- Witness for C8: a zero-row region at a small concrete expansion. -/
theorem c8_zero_rows_witness :
    (regionRows ([] : List Row) "us-east-1" = [] ∧
      (get_expanded_network_ips ⟨0, 29⟩ ⟨0, 30⟩).isEmpty = false ∧
      validate_region ["us-east-1"] "us-east-1" = true) ∧
    (create_backup ([] : List Row) "us-east-1" = none ∧
      (mainCore ⟨0, 29⟩ ⟨0, 30⟩ ⟨"local", "us-east-1", none, true, none, none⟩
        ⟨true, ["us-east-1"], [], [], true, true, true, true⟩).events.all
        (fun ev => !isBackupWrite ev) = true ∧
      Event.note "No existing IP addresses found for region" ∈
        (mainCore ⟨0, 29⟩ ⟨0, 30⟩ ⟨"local", "us-east-1", none, true, none, none⟩
          ⟨true, ["us-east-1"], [], [], true, true, true, true⟩).events ∧
      (∃ ips, Event.dumpCreate "us-east-1" ips ∈
        (mainCore ⟨0, 29⟩ ⟨0, 30⟩ ⟨"local", "us-east-1", none, true, none, none⟩
          ⟨true, ["us-east-1"], [], [], true, true, true, true⟩).events) ∧
      Event.flagRollbackUnavailable ∉
        (mainCore ⟨0, 29⟩ ⟨0, 30⟩ ⟨"local", "us-east-1", none, true, none, none⟩
          ⟨true, ["us-east-1"], [], [], true, true, true, true⟩).events) :=
  ⟨⟨rfl, by decide, by decide⟩,
    c8_zero_rows ⟨0, 29⟩ ⟨0, 30⟩ ⟨"local", "us-east-1", none, true, none, none⟩
      ⟨true, ["us-east-1"], [], [], true, true, true, true⟩
      rfl (Or.inl rfl) (by decide) rfl (by decide) rfl⟩

/-- Counterexample to C8 as stated: for a region with zero rows, forward
provisioning proceeds (the dump artifact is created and loaded) but the
trace contains no explicit rollback-unavailable flag of any kind — the
claimed "must explicitly flag to the operator that rollback is unavailable"
behavior does not exist in the code. -/
theorem c8_counterexample :
    regionRows ([] : List Row) "us-east-1" = [] ∧
    Event.dumpCreate "us-east-1" [4, 5, 6, 7] ∈
      (mainCore ⟨0, 29⟩ ⟨0, 30⟩ ⟨"local", "us-east-1", none, true, none, none⟩
        ⟨true, ["us-east-1"], [], [], true, true, true, true⟩).events ∧
    Event.flagRollbackUnavailable ∉
      (mainCore ⟨0, 29⟩ ⟨0, 30⟩ ⟨"local", "us-east-1", none, true, none, none⟩
        ⟨true, ["us-east-1"], [], [], true, true, true, true⟩).events :=
  ⟨rfl, by decide, by decide⟩

end MainTrace

end IpFiller
